import Mathlib

/-!
# Verification of `concat-files` (per-directory CSV concatenation)

Shallow embedding of `src/main.rs`. CSV cells are `String`s, a record
(`csv::StringRecord`) is a `List String`. File I/O and CSV parsing are
modelled by explicit data: a file carries the result of reading its header
and, for each data row, the result of parsing that row. The per-directory
processing of `main` is modelled as a function producing the ordered trace
of filesystem operations it performs on the output side (create temp file,
write a record, flush, rename) together with the directory's outcome.
-/

namespace ConcatFiles

/-- The UTF-8 byte-order mark character `U+FEFF`. -/
def bomChar : Char := '\uFEFF'

/-- Embeds `strip_bom` (main.rs lines 150–166): if the first header cell
starts with the BOM, the record is rebuilt with the BOM removed from the
first cell, every other cell pushed unchanged; otherwise the record is
left as is. `strip_prefix("\u{feff}")` on a Rust `&str` removes exactly
one leading `U+FEFF` character, i.e. the head of the character list. -/
def strip_bom (hdr : List String) : List String :=
  match hdr with
  | [] => []
  | first :: rest =>
    if first.data.head? = some bomChar then String.mk first.data.tail :: rest
    else first :: rest

/-- Embeds `Iterator::position(|h| h == name)` from `build_mapping`
(main.rs line 172): index of the first element satisfying the predicate. -/
def position (p : String → Bool) : List String → Option Nat
  | [] => none
  | h :: t => if p h then some 0 else (position p t).map (· + 1)

/-- Embeds `build_mapping` (main.rs lines 169–174): for each canonical
column name, the index of the first file-header column equal to that name
(`==` on strings), or `none` when absent. -/
def build_mapping (canonical file_hdr : List String) : List (Option Nat) :=
  canonical.map (fun name => position (fun h => h == name) file_hdr)

/-- Embeds `map_record` (main.rs lines 178–199): one output cell per
mapping entry; a `some src_idx` entry reads the row's cell at `src_idx`
falling back to `""` when the row is too short (`rec.get(idx).unwrap_or("")`),
a `none` entry emits `""`. The `canonical` and `file_hdr` arguments are
carried as in the source signature (used there only for capacity). -/
def map_record (canonical file_hdr : List String) (rec : List String)
    (map : List (Option Nat)) : List String :=
  map.map (fun m =>
    match m with
    | some src_idx => rec.getD src_idx ""
    | none => "")

/-- What `warn_on_mismatch` prints to stderr (main.rs lines 202–228):
nothing when the header equals canonical, a mismatch warning naming the
missing/extra column names when the name sets differ, an order-only notice
otherwise. The source collects the sets into `HashSet`s whose iteration
order is unspecified; here the difference lists keep source order, which
is faithful up to the (unspecified) printing order and deduplication. -/
inductive Diagnostic where
  | quiet
  | mismatch (missing extra : List String)
  | orderInfo
deriving Repr, DecidableEq

/-- Embeds `warn_on_mismatch` (main.rs lines 202–228) as the diagnostic it
emits; it returns `()` in the source and has no other effect. -/
def warn_on_mismatch (canonical file_hdr : List String) : Diagnostic :=
  if canonical = file_hdr then Diagnostic.quiet
  else
    let missing := canonical.filter (fun c => !(file_hdr.contains c))
    let extra := file_hdr.filter (fun h => !(canonical.contains h))
    if missing ≠ [] ∨ extra ≠ [] then Diagnostic.mismatch missing extra
    else Diagnostic.orderInfo

/-- A CSV file as the reader sees it: the result of reading its header row
(`rdr.headers()` can fail), and the result of parsing each data row in
order (`rdr.records()` items can fail, propagated with `?` in `main`). -/
structure FCsvFile where
  headerE : Except String (List String)
  rows : List (Except String (List String))
deriving Repr

/-- Embeds `read_header` (main.rs lines 137–147): read the header row and
strip the BOM (the unused `count` component is dropped). -/
def read_headerE (f : FCsvFile) : Except String (List String) :=
  f.headerE.map strip_bom

/-- Filesystem operations `main` performs on the output side, in order:
creating the temp file for a directory, writing one record to it, flushing
it, and renaming it onto the final path. -/
inductive FsOp where
  | createTmp (path : String)
  | writeRow (path : String) (row : List String)
  | flush (path : String)
  | rename (src dst : String)
deriving Repr, DecidableEq

/-- Whether an operation creates or modifies the file at path `p`. -/
def FsOp.touches (op : FsOp) (p : String) : Bool :=
  match op with
  | .createTmp q => q == p
  | .writeRow q _ => q == p
  | .flush q => q == p
  | .rename _ dst => dst == p

/-- The records a trace writes, in order. -/
def written_rows (ops : List FsOp) : List (List String) :=
  ops.filterMap (fun op =>
    match op with
    | .writeRow _ r => some r
    | _ => none)

/-- Embeds the inner row loop of `main` (lines 100–104 / 109–113): write
each successfully parsed row through `map_record`, stop at the first row
parse error (the `?` aborts). Returns the write trace and whether every
row succeeded. -/
def write_rows (tmp : String) (canonical hdr : List String)
    (map : List (Option Nat)) :
    List (Except String (List String)) → List FsOp × Bool
  | [] => ([], true)
  | Except.error _ :: _ => ([], false)
  | Except.ok rec :: rest =>
    let r := write_rows tmp canonical hdr map rest
    (FsOp.writeRow tmp (map_record canonical hdr rec map) :: r.1, r.2)

/-- Embeds one iteration of the per-file loop of `main` (lines 84–115),
with the diagnostic function abstracted so that its (non-)influence can be
stated: read and BOM-strip the file's header, build the mapping, compute
the diagnostic, then map and write every row. -/
def write_file_diag (diag : List String → List String → Diagnostic)
    (tmp : String) (canonical : List String) (f : FCsvFile) :
    Diagnostic × (List FsOp × Bool) :=
  match f.headerE with
  | Except.error _ => (Diagnostic.quiet, ([], false))
  | Except.ok hdr0 =>
    let hdr := strip_bom hdr0
    let map := build_mapping canonical hdr
    (diag canonical hdr, write_rows tmp canonical hdr map f.rows)

/-- One iteration of the per-file loop as `main` runs it, with
`warn_on_mismatch` as the diagnostic. -/
def write_file (tmp : String) (canonical : List String) (f : FCsvFile) :
    List FsOp × Bool :=
  (write_file_diag warn_on_mismatch tmp canonical f).2

/-- The per-file loop over all files of a directory (main.rs lines 84–115),
stopping at the first failing file. -/
def write_all (tmp : String) (canonical : List String) :
    List FCsvFile → List FsOp × Bool
  | [] => ([], true)
  | f :: fs =>
    let r := write_file tmp canonical f
    if r.2 then
      let r2 := write_all tmp canonical fs
      (r.1 ++ r2.1, r2.2)
    else (r.1, false)

/-- Outcome of processing one directory in `main`'s loop. -/
inductive DirOutcome where
  | promoted
  | skippedNoCsv
  | skippedEmptyHeader
  | failed
deriving Repr, DecidableEq

/-- Embeds the body of `main`'s per-directory loop (lines 42–122): an
empty CSV list is skipped before anything is created; otherwise the temp
file is created, the canonical header is read from the first file
(failure aborts), an empty canonical header skips the directory; otherwise
the canonical header is written, every file's rows are mapped and written,
and on full success the temp file is flushed and renamed onto the final
output path. Any failure leaves the trace truncated with no rename. -/
def process_dir (tmp out : String) (files : List FCsvFile) :
    List FsOp × DirOutcome :=
  match files with
  | [] => ([], DirOutcome.skippedNoCsv)
  | first :: restFiles =>
    match read_headerE first with
    | Except.error _ => ([FsOp.createTmp tmp], DirOutcome.failed)
    | Except.ok canonical =>
      if canonical = [] then
        ([FsOp.createTmp tmp], DirOutcome.skippedEmptyHeader)
      else
        let r := write_all tmp canonical (first :: restFiles)
        if r.2 then
          (FsOp.createTmp tmp :: FsOp.writeRow tmp canonical ::
            (r.1 ++ [FsOp.flush tmp, FsOp.rename tmp out]),
           DirOutcome.promoted)
        else
          (FsOp.createTmp tmp :: FsOp.writeRow tmp canonical :: r.1,
           DirOutcome.failed)

/-- An input subdirectory: its name and its sorted CSV files. -/
structure Dir where
  name : String
  files : List FCsvFile
deriving Repr

/-- Final output path for a directory: `out.join(format!("{}.csv", dir_name))`. -/
def out_path (outRoot : String) (d : Dir) : String :=
  outRoot ++ "/" ++ d.name ++ ".csv"

/-- Temp path: `out_path.with_extension("csv.tmp")`. -/
def tmp_path (outRoot : String) (d : Dir) : String :=
  outRoot ++ "/" ++ d.name ++ ".csv.tmp"

/-- Embeds `main`'s loop over sorted subdirectories: a `failed` directory
aborts the run (`?` propagates), skipped and promoted directories let the
loop continue with the next directory. Returns the combined trace and
whether the whole run succeeded. -/
def run_dirs (outRoot : String) : List Dir → List FsOp × Bool
  | [] => ([], true)
  | d :: ds =>
    let r := process_dir (tmp_path outRoot d) (out_path outRoot d) d.files
    match r.2 with
    | DirOutcome.failed => (r.1, false)
    | _ =>
      let rest := run_dirs outRoot ds
      (r.1 ++ rest.1, rest.2)

/-- Embeds Rust's `char::is_ascii`: the code point is at most `0x7F`. -/
def is_ascii (c : Char) : Bool := c.toNat ≤ 0x7F

/-- Embeds the delimiter handling of `main` (lines 13–18):
`args.get(3).and_then(|s| s.chars().next()).unwrap_or(',')`, then
`bail!` when the resulting character is not ASCII. -/
def parse_delim (arg : Option String) : Except String Char :=
  let delim_char := (arg.bind (fun s => s.data.head?)).getD ','
  if is_ascii delim_char then Except.ok delim_char
  else Except.error "Delimiter must be a single ASCII character"

/-- `jan.csv` of the spec's sales scenario: header `id,amt`, then rows
`1,10` and `2,20`, all parsing successfully. -/
def janFile : FCsvFile :=
  ⟨Except.ok ["id","amt"], [Except.ok ["1","10"], Except.ok ["2","20"]]⟩

/-- `feb.csv` of the spec's sales scenario: header `amt,id`, then the row
`30,3`, all parsing successfully. -/
def febFile : FCsvFile := ⟨Except.ok ["amt","id"], [Except.ok ["30","3"]]⟩

/-- `position` returns an index of an element satisfying the predicate. -/
theorem position_eq_some {p : String → Bool} :
    ∀ {l : List String} {j : Nat}, position p l = some j →
      ∃ x, l[j]? = some x ∧ p x = true := by
  intro l
  induction l with
  | nil => intro j h; simp [position] at h
  | cons a t ih =>
    intro j h
    by_cases hp : p a
    · simp [position, hp] at h
      exact h ▸ ⟨a, by simp, hp⟩
    · simp [position, hp] at h
      obtain ⟨j', hj', rfl⟩ := h
      obtain ⟨x, hx, hpx⟩ := ih hj'
      exact ⟨x, by simpa using hx, hpx⟩

/-- `position` returns the FIRST such index: every earlier element fails
the predicate. -/
theorem position_first {p : String → Bool} :
    ∀ {l : List String} {j : Nat}, position p l = some j →
      ∀ k x, k < j → l[k]? = some x → p x = false := by
  intro l
  induction l with
  | nil => intro j h; simp [position] at h
  | cons a t ih =>
    intro j h k x hk hx
    by_cases hp : p a
    · simp [position, hp] at h
      omega
    · simp [position, hp] at h
      obtain ⟨j', hj', rfl⟩ := h
      simp only [Bool.not_eq_true] at hp
      cases k with
      | zero =>
        have hxa : a = x := by simpa using hx
        exact hxa ▸ hp
      | succ k' =>
        exact ih hj' k' x (by omega) (by simpa using hx)

/-- Entry `i` of the mapping is the position of canonical name `i` in the
file header. -/
theorem build_mapping_getElem (canonical file_hdr : List String) (i : Nat) :
    (build_mapping canonical file_hdr)[i]? =
      (canonical[i]?).map (fun name => position (fun h => h == name) file_hdr) := by
  simp [build_mapping, List.getElem?_map]

/-- Soundness of the mapping: a mapped index points at a file-header cell
equal to the canonical name. -/
theorem mapping_sound {canonical file_hdr : List String} {i j : Nat}
    (h : (build_mapping canonical file_hdr)[i]? = some (some j)) :
    file_hdr[j]? = canonical[i]? ∧ ∃ name, canonical[i]? = some name := by
  rw [build_mapping_getElem] at h
  obtain ⟨name, hname, hpos⟩ := Option.map_eq_some'.mp h
  obtain ⟨x, hx, hpx⟩ := position_eq_some hpos
  have : x = name := by simpa using hpx
  subst this
  exact ⟨by rw [hx, hname], ⟨x, hname⟩⟩

/-- The mapping always picks the FIRST occurrence: no earlier file-header
cell equals the canonical name. -/
theorem mapping_first {canonical file_hdr : List String} {i j : Nat}
    (h : (build_mapping canonical file_hdr)[i]? = some (some j)) :
    ∀ k, k < j → file_hdr[k]? ≠ canonical[i]? := by
  rw [build_mapping_getElem] at h
  obtain ⟨name, hname, hpos⟩ := Option.map_eq_some'.mp h
  intro k hk hke
  rw [hname] at hke
  have := position_first hpos k name hk hke
  simp at this

/-- An index that is a LATER duplicate in the file header (some strictly
earlier cell holds the same name) is never the target of any mapping
entry. -/
theorem later_duplicate_not_mapped {file_hdr : List String} {j' j : Nat}
    (hlt : j' < j) (hdup : file_hdr[j']? = file_hdr[j]?) :
    ∀ (canonical : List String) (i : Nat),
      (build_mapping canonical file_hdr)[i]? ≠ some (some j) := by
  intro canonical i h
  obtain ⟨hsound, name, hname⟩ := mapping_sound h
  exact mapping_first h j' hlt (hdup.trans hsound)

/-- A file-header column whose name is not in canonical is never the
target of any mapping entry. -/
theorem extra_not_mapped {canonical file_hdr : List String} {j : Nat} {name : String}
    (hj : file_hdr[j]? = some name) (hnotin : name ∉ canonical) :
    ∀ i : Nat, (build_mapping canonical file_hdr)[i]? ≠ some (some j) := by
  intro i h
  obtain ⟨hsound, name', hname'⟩ := mapping_sound h
  apply hnotin
  have : canonical[i]? = some name := by rw [← hsound, hj]
  exact List.getElem?_mem this

/-- Changing the row cell at a never-mapped index does not change the
mapped output row. -/
theorem map_record_set_unmapped {canonical file_hdr : List String} {j : Nat}
    (hj : ∀ i : Nat, (build_mapping canonical file_hdr)[i]? ≠ some (some j))
    (rec : List String) (x : String) :
    map_record canonical file_hdr (rec.set j x) (build_mapping canonical file_hdr) =
      map_record canonical file_hdr rec (build_mapping canonical file_hdr) := by
  unfold map_record
  apply List.map_congr_left
  intro m hm
  cases m with
  | none => rfl
  | some s =>
    obtain ⟨n, hn⟩ := List.getElem?_of_mem hm
    have hsj : s ≠ j := by
      intro hsj
      exact hj n (hsj ▸ hn)
    simp only [List.getD_eq_getElem?_getD]
    rw [List.getElem?_set_ne (Ne.symm hsj)]

/-- Every operation emitted by the row loop is a record write to the temp
file. -/
theorem write_rows_shape (tmp : String) (canonical hdr : List String)
    (map : List (Option Nat)) :
    ∀ rows, ∀ op ∈ (write_rows tmp canonical hdr map rows).1,
      ∃ row, op = FsOp.writeRow tmp row := by
  intro rows
  induction rows with
  | nil => simp [write_rows]
  | cons r rest ih =>
    cases r with
    | error e => simp [write_rows]
    | ok rec =>
      intro op hop
      simp only [write_rows, List.mem_cons] at hop
      rcases hop with rfl | hop
      · exact ⟨_, rfl⟩
      · exact ih op hop

/-- Every operation emitted for one file is a record write to the temp
file. -/
theorem write_file_shape (tmp : String) (canonical : List String) (f : FCsvFile) :
    ∀ op ∈ (write_file tmp canonical f).1, ∃ row, op = FsOp.writeRow tmp row := by
  cases f with
  | mk headerE rows =>
    cases headerE with
    | error e => simp [write_file, write_file_diag]
    | ok hdr0 =>
      intro op hop
      simp only [write_file, write_file_diag] at hop
      exact write_rows_shape tmp canonical _ _ rows op hop

/-- Every operation emitted by the per-file loop is a record write to the
temp file. -/
theorem write_all_shape (tmp : String) (canonical : List String) :
    ∀ fs, ∀ op ∈ (write_all tmp canonical fs).1,
      ∃ row, op = FsOp.writeRow tmp row := by
  intro fs
  induction fs with
  | nil => simp [write_all]
  | cons f rest ih =>
    intro op hop
    simp only [write_all] at hop
    by_cases hw : (write_file tmp canonical f).2
    · rw [if_pos hw] at hop
      simp only [List.mem_append] at hop
      rcases hop with hop | hop
      · exact write_file_shape tmp canonical f op hop
      · exact ih op hop
    · rw [if_neg hw] at hop
      exact write_file_shape tmp canonical f op hop

/-- C1: for a directory with at least one CSV file (whose header reads
successfully and is nonempty after BOM stripping), the first record
written to the output is exactly the first file's header after BOM
stripping, in the same order; and BOM stripping removes one leading
`U+FEFF` from the first header cell only, leaving every other cell (and a
BOM-free first cell) unchanged. -/
theorem c1_canonical_header (tmp out : String) (first : FCsvFile)
    (restFiles : List FCsvFile) (hdr0 : List String)
    (h1 : first.headerE = Except.ok hdr0) (h2 : strip_bom hdr0 ≠ []) :
    (written_rows (process_dir tmp out (first :: restFiles)).1).head?
        = some (strip_bom hdr0)
    ∧ (∀ (s : List Char) (cs : List String),
        strip_bom (String.mk (bomChar :: s) :: cs) = String.mk s :: cs)
    ∧ (∀ (c : String) (cs : List String), c.data.head? ≠ some bomChar →
        strip_bom (c :: cs) = c :: cs)
    ∧ (∀ (c : String) (cs : List String), (strip_bom (c :: cs)).tail = cs) := by
  have hread : read_headerE first = Except.ok (strip_bom hdr0) := by
    simp [read_headerE, h1, Except.map]
  refine ⟨?_, ?_, ?_, ?_⟩
  · simp only [process_dir, hread]
    rw [if_neg h2]
    by_cases hw : (write_all tmp (strip_bom hdr0) (first :: restFiles)).2
    · rw [if_pos hw]
      simp [written_rows]
    · rw [if_neg hw]
      simp [written_rows]
  · intro s cs
    simp [strip_bom]
  · intro c cs h
    simp [strip_bom, h]
  · intro c cs
    by_cases h : c.data.head? = some bomChar
    · simp [strip_bom, h]
    · simp [strip_bom, h]

/-- Witness for C1 at a concrete directory whose first file's header is
`["\uFEFFid","amt"]`. -/
theorem c1_witness :
    (written_rows (process_dir "s.csv.tmp" "s.csv"
        [⟨Except.ok ["\uFEFFid","amt"], []⟩]).1).head?
      = some (strip_bom ["\uFEFFid","amt"]) :=
  (c1_canonical_header "s.csv.tmp" "s.csv" ⟨Except.ok ["\uFEFFid","amt"], []⟩ []
      ["\uFEFFid","amt"] rfl (by decide)).1

/-- C2: for every input row, regardless of its length, the mapped output
row has exactly canonical-header length; an absent mapping position yields
`""`, and a mapped position whose source index is beyond the row's last
cell yields `""`. `map_record` is a total function, so producing the
output row never fails. -/
theorem c2_map_record_total (canonical file_hdr rec : List String) :
    (map_record canonical file_hdr rec (build_mapping canonical file_hdr)).length
        = canonical.length
    ∧ (∀ i : Nat, (build_mapping canonical file_hdr)[i]? = some none →
        (map_record canonical file_hdr rec (build_mapping canonical file_hdr))[i]?
          = some "")
    ∧ (∀ i j : Nat, (build_mapping canonical file_hdr)[i]? = some (some j) →
        rec.length ≤ j →
        (map_record canonical file_hdr rec (build_mapping canonical file_hdr))[i]?
          = some "") := by
  refine ⟨?_, ?_, ?_⟩
  · simp [map_record, build_mapping]
  · intro i h
    simp [map_record, List.getElem?_map, h]
  · intro i j h hlen
    simp [map_record, List.getElem?_map, h, List.getD_eq_getElem?_getD,
      List.getElem?_eq_none hlen]

/-- Witness for C2: canonical `["a","b"]`, file header `["b"]`, empty row;
the output row is two cells long and both padded cells are `""`. -/
theorem c2_witness :
    (map_record ["a","b"] ["b"] [] (build_mapping ["a","b"] ["b"])).length = 2
    ∧ (map_record ["a","b"] ["b"] [] (build_mapping ["a","b"] ["b"]))[0]? = some ""
    ∧ (map_record ["a","b"] ["b"] [] (build_mapping ["a","b"] ["b"]))[1]? = some "" :=
  ⟨(c2_map_record_total ["a","b"] ["b"] []).1,
   (c2_map_record_total ["a","b"] ["b"] []).2.1 0 (by decide),
   (c2_map_record_total ["a","b"] ["b"] []).2.2 1 0 (by decide) (by decide)⟩

/-- C3: the spec's sales scenario. With sorted files `jan.csv`
(header `id,amt`, rows `1,10` and `2,20`) and `feb.csv` (header `amt,id`,
row `30,3`), the canonical header is `id,amt` and the output records are
the header `id,amt` followed by `1,10`, `2,20`, `3,30` (feb reordered),
and the directory is promoted. -/
theorem c3_sales_scenario :
    read_headerE janFile = Except.ok ["id","amt"]
    ∧ written_rows (process_dir "_out/sales.csv.tmp" "_out/sales.csv"
        [janFile, febFile]).1
        = [["id","amt"], ["1","10"], ["2","20"], ["3","30"]]
    ∧ (process_dir "_out/sales.csv.tmp" "_out/sales.csv" [janFile, febFile]).2
        = DirOutcome.promoted :=
  ⟨rfl, by decide, by decide⟩

/-- C4: column identity is exact string equality: a mapped index always
points at a file-header cell literally equal to the canonical name, and in
particular `"Name"` maps to neither `"name"` nor `" Name"`. -/
theorem c4_exact_equality (canonical file_hdr : List String) :
    (∀ i j : Nat, (build_mapping canonical file_hdr)[i]? = some (some j) →
      file_hdr[j]? = canonical[i]?)
    ∧ build_mapping ["Name"] ["name"] = [none]
    ∧ build_mapping ["Name"] [" Name"] = [none] :=
  ⟨fun _ _ h => (mapping_sound h).1, by decide, by decide⟩

/-- Witness for C4 at canonical `["id"]`, file header `["id"]`, where the
single column maps to index `0`. -/
theorem c4_witness :
    (["id"] : List String)[0]? = (["id"] : List String)[0]?
    ∧ build_mapping ["Name"] ["name"] = [none] :=
  ⟨(c4_exact_equality ["id"] ["id"]).1 0 0 (by decide),
   (c4_exact_equality ["Name"] ["name"]).2.1⟩

/-- C5: a file-header column whose name is absent from canonical is never
the target of any mapping entry, so its cells never reach any output row
(changing such a cell leaves the mapped row unchanged) and cause no error;
concretely, with canonical `id,amt` and file header `amt,id,region`, the
row `30,3,west` maps to `3,30`. -/
theorem c5_extra_columns_dropped (canonical file_hdr : List String) :
    (∀ (j : Nat) (name : String), file_hdr[j]? = some name → name ∉ canonical →
      ∀ (i : Nat), (build_mapping canonical file_hdr)[i]? ≠ some (some j))
    ∧ (∀ (j : Nat) (name : String) (rec : List String) (x : String),
        file_hdr[j]? = some name → name ∉ canonical →
        map_record canonical file_hdr (rec.set j x)
            (build_mapping canonical file_hdr)
          = map_record canonical file_hdr rec (build_mapping canonical file_hdr))
    ∧ map_record ["id","amt"] ["amt","id","region"] ["30","3","west"]
        (build_mapping ["id","amt"] ["amt","id","region"]) = ["3","30"] :=
  ⟨fun _ name hj hn i => extra_not_mapped hj hn i,
   fun _ name rec x hj hn => map_record_set_unmapped (extra_not_mapped hj hn) rec x,
   by decide⟩

/-- Witness for C5: with canonical `id,amt` and file header
`amt,id,region`, canonical position `0` does not map to the `region`
column (index `2`). -/
theorem c5_witness :
    (build_mapping ["id","amt"] ["amt","id","region"])[0]? ≠ some (some 2) :=
  (c5_extra_columns_dropped ["id","amt"] ["amt","id","region"]).1 2 "region"
    (by decide) (by decide) 0

/-- C6 counterexample: the claim says an empty delimiter argument fails
fast, but the code's `args.get(3).and_then(|s| s.chars().next()).unwrap_or(',')`
turns the empty string into the default comma and succeeds. -/
theorem c6_counterexample : parse_delim (some "") = Except.ok ',' := rfl

/-- C6 (amended): the program fails fast exactly when the delimiter
argument's FIRST character is non-ASCII; an omitted argument and an empty
argument both yield the default comma, and otherwise the first character
of the argument is accepted as delimiter. -/
theorem c6_delim_validation (s : String) (c : Char) :
    parse_delim none = Except.ok ','
    ∧ parse_delim (some "") = Except.ok ','
    ∧ (s.data.head? = some c → is_ascii c = false →
        parse_delim (some s) = Except.error "Delimiter must be a single ASCII character")
    ∧ (s.data.head? = some c → is_ascii c = true →
        parse_delim (some s) = Except.ok c) := by
  refine ⟨rfl, rfl, ?_, ?_⟩
  · intro hh hc
    simp [parse_delim, hh, hc]
  · intro hh hc
    simp [parse_delim, hh, hc]

/-- Witness for C6: a delimiter argument starting with the non-ASCII
character `é` is rejected, and `"ab"` yields delimiter `a`. -/
theorem c6_witness :
    parse_delim (some "é;") = Except.error "Delimiter must be a single ASCII character"
    ∧ parse_delim (some "ab") = Except.ok 'a' :=
  ⟨(c6_delim_validation "é;" 'é').2.2.1 (by decide) (by decide),
   (c6_delim_validation "ab" 'a').2.2.2 (by decide) (by decide)⟩

/-- C7: a directory whose first file has an empty canonical header (after
BOM stripping) is skipped with only the temp-file creation in its trace —
no header or data record is written and no rename promotes an output —
and the run continues with the next directory instead of aborting. -/
theorem c7_empty_header_skip (outRoot : String) (d : Dir) (ds : List Dir)
    (first : FCsvFile) (restFiles : List FCsvFile) (hdr0 : List String)
    (hf : d.files = first :: restFiles)
    (h1 : first.headerE = Except.ok hdr0) (h2 : strip_bom hdr0 = []) :
    process_dir (tmp_path outRoot d) (out_path outRoot d) d.files
        = ([FsOp.createTmp (tmp_path outRoot d)], DirOutcome.skippedEmptyHeader)
    ∧ run_dirs outRoot (d :: ds)
        = (FsOp.createTmp (tmp_path outRoot d) :: (run_dirs outRoot ds).1,
           (run_dirs outRoot ds).2) := by
  have hread : read_headerE first = Except.ok [] := by
    simp [read_headerE, h1, Except.map, h2]
  have hpd : process_dir (tmp_path outRoot d) (out_path outRoot d) d.files
      = ([FsOp.createTmp (tmp_path outRoot d)], DirOutcome.skippedEmptyHeader) := by
    rw [hf]
    simp [process_dir, hread]
  exact ⟨hpd, by simp [run_dirs, hpd]⟩

/-- Witness for C7 at a concrete directory `empty` whose only file has a
zero-column header. -/
theorem c7_witness :
    process_dir (tmp_path "_out" ⟨"empty", [⟨Except.ok [], []⟩]⟩)
        (out_path "_out" ⟨"empty", [⟨Except.ok [], []⟩]⟩)
        (Dir.files ⟨"empty", [⟨Except.ok [], []⟩]⟩)
      = ([FsOp.createTmp (tmp_path "_out" ⟨"empty", [⟨Except.ok [], []⟩]⟩)],
         DirOutcome.skippedEmptyHeader)
    ∧ run_dirs "_out" [⟨"empty", [⟨Except.ok [], []⟩]⟩]
      = (FsOp.createTmp (tmp_path "_out" ⟨"empty", [⟨Except.ok [], []⟩]⟩)
          :: (run_dirs "_out" []).1, (run_dirs "_out" []).2) :=
  c7_empty_header_skip "_out" ⟨"empty", [⟨Except.ok [], []⟩]⟩ []
    ⟨Except.ok [], []⟩ [] [] rfl rfl rfl

/-- C8: if the temp path differs from the final output path, then among
all operations of a directory's trace, the final output path is touched
exactly by one atomic rename when the directory is promoted and by nothing
otherwise; and when promoted, the trace ends with flush-then-rename after
every record write. Any read or parse failure before the rename therefore
leaves the final path untouched. -/
theorem c8_atomic_promotion (tmp out : String) (files : List FCsvFile)
    (hne : tmp ≠ out) :
    ((process_dir tmp out files).1.filter (fun op => FsOp.touches op out)
        = if (process_dir tmp out files).2 = DirOutcome.promoted
          then [FsOp.rename tmp out] else [])
    ∧ ((process_dir tmp out files).2 = DirOutcome.promoted →
        ∃ pre, (process_dir tmp out files).1
          = pre ++ [FsOp.flush tmp, FsOp.rename tmp out]) := by
  have htmp : (tmp == out) = false := beq_eq_false_iff_ne.mpr hne
  have hout : (out == out) = true := beq_self_eq_true out
  cases files with
  | nil => simp [process_dir]
  | cons first restFiles =>
    cases hh : read_headerE first with
    | error e => simp [process_dir, hh, FsOp.touches, htmp]
    | ok canonical =>
      by_cases hc : canonical = []
      · simp [process_dir, hh, hc, FsOp.touches, htmp]
      · have hnil : ∀ op ∈ (write_all tmp canonical (first :: restFiles)).1,
            FsOp.touches op out = false := by
          intro op hop
          obtain ⟨row, rfl⟩ := write_all_shape tmp canonical (first :: restFiles) op hop
          simp [FsOp.touches, htmp]
        by_cases hw : (write_all tmp canonical (first :: restFiles)).2 = true
        · constructor
          · simp [process_dir, hh, hc, hw, List.filter_cons, List.filter_append,
              FsOp.touches, htmp, hout]
            intro a ha
            simpa [FsOp.touches] using hnil a ha
          · intro _
            refine ⟨FsOp.createTmp tmp :: FsOp.writeRow tmp canonical ::
              (write_all tmp canonical (first :: restFiles)).1, ?_⟩
            simp [process_dir, hh, hc, hw]
        · simp [process_dir, hh, hc, hw, List.filter_cons, FsOp.touches, htmp]
          intro a ha
          simpa [FsOp.touches] using hnil a ha

/-- Witness for C8 at a one-file directory whose trace promotes. -/
theorem c8_witness :
    ((process_dir "a.csv.tmp" "a.csv" [⟨Except.ok ["h"], []⟩]).1.filter
        (fun op => FsOp.touches op "a.csv")
      = if (process_dir "a.csv.tmp" "a.csv" [⟨Except.ok ["h"], []⟩]).2
            = DirOutcome.promoted
        then [FsOp.rename "a.csv.tmp" "a.csv"] else [])
    ∧ ((process_dir "a.csv.tmp" "a.csv" [⟨Except.ok ["h"], []⟩]).2
          = DirOutcome.promoted →
        ∃ pre, (process_dir "a.csv.tmp" "a.csv" [⟨Except.ok ["h"], []⟩]).1
          = pre ++ [FsOp.flush "a.csv.tmp", FsOp.rename "a.csv.tmp" "a.csv"]) :=
  c8_atomic_promotion "a.csv.tmp" "a.csv" [⟨Except.ok ["h"], []⟩] (by decide)

/-- C9: the header-mismatch diagnostics are purely observational: the
write trace and success flag for a file are identical under any diagnostic
function whatsoever (in particular, whether or not `warn_on_mismatch`
emits anything), and the processing `main` performs is exactly the
diagnostic-independent second component. -/
theorem c9_diagnostics_observational (diag : List String → List String → Diagnostic)
    (tmp : String) (canonical : List String) (f : FCsvFile) :
    (write_file_diag diag tmp canonical f).2
      = (write_file_diag warn_on_mismatch tmp canonical f).2
    ∧ write_file tmp canonical f = (write_file_diag diag tmp canonical f).2 := by
  cases f with
  | mk headerE rows =>
    cases headerE with
    | error e => exact ⟨rfl, rfl⟩
    | ok hdr0 => exact ⟨rfl, rfl⟩

/-- C10: the mapping always resolves a name to its first occurrence in the
file header; duplicate canonical positions map to the same source index;
a later duplicate column of the file header is never the target of any
mapping entry, so its cells are never emitted (changing such a cell leaves
every mapped row unchanged) — including when the file header itself is the
canonical header. -/
theorem c10_first_occurrence (canonical file_hdr : List String) :
    (∀ i j : Nat, (build_mapping canonical file_hdr)[i]? = some (some j) →
      file_hdr[j]? = canonical[i]?
        ∧ ∀ k : Nat, k < j → file_hdr[k]? ≠ canonical[i]?)
    ∧ (∀ i i' : Nat, canonical[i]? = canonical[i']? →
      (build_mapping canonical file_hdr)[i]? = (build_mapping canonical file_hdr)[i']?)
    ∧ (∀ j' j : Nat, j' < j → file_hdr[j']? = file_hdr[j]? →
      ∀ (i : Nat), (build_mapping canonical file_hdr)[i]? ≠ some (some j))
    ∧ (∀ (j' j : Nat) (rec : List String) (x : String), j' < j →
        file_hdr[j']? = file_hdr[j]? →
        map_record canonical file_hdr (rec.set j x)
            (build_mapping canonical file_hdr)
          = map_record canonical file_hdr rec (build_mapping canonical file_hdr)) :=
  ⟨fun _ _ h => ⟨(mapping_sound h).1, fun k hk => mapping_first h k hk⟩,
   fun i i' he => by rw [build_mapping_getElem, build_mapping_getElem, he],
   fun _ _ hlt hdup i => later_duplicate_not_mapped hlt hdup canonical i,
   fun _ _ rec x hlt hdup => map_record_set_unmapped
     (fun i => later_duplicate_not_mapped hlt hdup canonical i) rec x⟩

/-- Witness for C10: with the duplicated header `["a","a"]` as both
canonical and file header (the first-file case), canonical position `1`
does not map to source index `1`. -/
theorem c10_witness :
    (build_mapping ["a","a"] ["a","a"])[1]? ≠ some (some 1) :=
  (c10_first_occurrence ["a","a"] ["a","a"]).2.2.1 0 1 (by decide) (by decide) 1

end ConcatFiles
